import Mathlib

/-!
Verification of the TriCore LLVM backend core: the addressing-mode matcher of
`TriCoreISelDAGToDAG.cpp` and the fixup encoder/applier of the assembler
backend (`TriCoreAsmBackend.cpp`).  Every definition below is a shallow
embedding of the corresponding C++ function; statefulness (the in-place
mutation of `TriCoreISelAddressMode` and of the output byte buffer) is made
explicit by state passing.  Machine integers are modelled by `Nat`/`Int`:
all the arithmetic performed by the embedded code stays far below any
64-bit overflow boundary, and the 32-bit constants that feed
`ConstantSDNode::getSExtValue` are sign-extended explicitly by `sext32`.
-/

/-! ## Fixup value encoder (`TriCoreAsmBackend.cpp`) -/

/-- The two target fixup kinds of `TriCoreFixupKinds.h` that
`adjustFixupValue` accepts (any other kind is `llvm_unreachable`). -/
inductive TriCoreFixupKind where
  | fixup_leg_mov_hi16_pcrel
  | fixup_leg_mov_lo16_pcrel
deriving DecidableEq, Repr

/-- The value that flows into the shared bit-splitting logic of
`adjustFixupValue`: the `hi16` case first executes `Value >>= 16` and then
falls through into the `lo16` case. -/
def preShiftValue (Kind : TriCoreFixupKind) (Value : Nat) : Nat :=
  match Kind with
  | TriCoreFixupKind.fixup_leg_mov_hi16_pcrel => Value >>> 16
  | TriCoreFixupKind.fixup_leg_mov_lo16_pcrel => Value

/-- `adjustFixupValue` (TriCoreAsmBackend.cpp, lines 101-120).  The
`hi16_pcrel` case shifts the value right by 16 and falls through into the
`lo16_pcrel` packing:
`Hi4 = (Value & 0xF000) >> 12; Lo12 = Value & 0x0FFF;
 Value = (Hi4 << 16) | Lo12`. -/
def adjustFixupValue (Kind : TriCoreFixupKind) (Value : Nat) : Nat :=
  ((preShiftValue Kind Value &&& 0xF000) >>> 12) <<< 16
    ||| (preShiftValue Kind Value &&& 0x0FFF)

/-- Model of the `MCFixup` data consumed by `applyFixup`: the fixup kind and
the byte offset into the output buffer (`Fixup.getOffset()`). -/
structure MCFixup where
  Kind : TriCoreFixupKind
  Offset : Nat
deriving DecidableEq, Repr

/-- One iteration of the `applyFixup` write loop:
`Data[Offset + i] |= uint8_t((Value >> (i * 8)) & 0xff)`.
The buffer is modelled as a byte-indexed function. -/
def orFixupByte (Offset i Value : Nat) (Data : Nat → Nat) : Nat → Nat :=
  fun j => if j = Offset + i then Data j ||| ((Value >>> (i * 8)) &&& 0xFF) else Data j

/-- `TriCoreAsmBackend::applyFixup` (lines 135-153).  `NumBytes` is the
constant 4, so the write loop `for (i = 0; i != NumBytes; ++i)` is unrolled
into its four iterations (applied left to right, i = 0 first).  When the
adjusted value is zero the function returns without touching the buffer. -/
def applyFixup (Fixup : MCFixup) (Data : Nat → Nat) (Value : Nat) : Nat → Nat :=
  if adjustFixupValue Fixup.Kind Value = 0 then Data
  else
    orFixupByte Fixup.Offset 3 (adjustFixupValue Fixup.Kind Value)
      (orFixupByte Fixup.Offset 2 (adjustFixupValue Fixup.Kind Value)
        (orFixupByte Fixup.Offset 1 (adjustFixupValue Fixup.Kind Value)
          (orFixupByte Fixup.Offset 0 (adjustFixupValue Fixup.Kind Value) Data)))

/-! ## Computation-graph nodes (`SDNode`/`SDValue` shapes used by the ISel) -/

/-- The graph-node shapes the TriCore instruction selector dispatches on.
`const` carries the 32-bit pattern of a `ConstantSDNode` (its `APInt`
value); `globalAddr` models a `GlobalAddressSDNode` (global id, offset);
`wrapper` is `TriCoreISD::Wrapper`; `sub` is `TriCoreISD::SUB`
(operand 0 only is used by `Select`); `store` carries operands
(chain, value, pointer) so that `getOperand(1)` is the stored value;
`register` models `CurDAG->getRegister`; `other` is any node shape this
core does not inspect. -/
inductive Node where
  | const (bits : Nat)
  | wrapper (op0 : Node)
  | globalAddr (g : Nat) (off : Int)
  | frameIndex (fi : Int)
  | add (op0 op1 : Node)
  | or (op0 op1 : Node)
  | sub (op0 : Node)
  | store (op0 op1 op2 : Node)
  | load (op0 op1 : Node)
  | sextload
  | register (r : Nat)
  | other (id : Nat)
deriving DecidableEq, Repr

/-- `ConstantSDNode::getSExtValue` for the 32-bit constants handled by the
matcher: two's-complement sign extension of a 32-bit pattern. -/
def sext32 (bits : Nat) : Int :=
  if bits % 2 ^ 32 < 2 ^ 31 then ((bits % 2 ^ 32 : Nat) : Int)
  else ((bits % 2 ^ 32 : Nat) : Int) - 2 ^ 32

/-! ## Addressing-mode descriptor (`TriCoreISelAddressMode`) -/

/-- The anonymous `enum { RegBase, FrameIndexBase }` discriminating the
`Base` union of `TriCoreISelAddressMode`. -/
inductive AMBaseKind where
  | RegBase
  | FrameIndexBase
deriving DecidableEq, Repr

/-- `TriCoreISelAddressMode` (TriCoreISelDAGToDAG.cpp, lines 32-82).  The
`Base` union is flattened into `BaseReg` (an `SDValue`, `none` for the null
value) and `BaseFrameIndex`; only the field matching `BaseType` is
meaningful.  Symbols are identifiers: `GV` a global value, `CP` a
constant-pool entry, `BlockAddr` a block address, `ES` an external-symbol
name, `JT` a jump-table index (`-1` when unset). -/
structure TriCoreISelAddressMode where
  BaseType : AMBaseKind
  BaseReg : Option Node
  BaseFrameIndex : Int
  Disp : Int
  GV : Option Nat
  CP : Option Nat
  BlockAddr : Option Nat
  ES : Option String
  JT : Int
  Align : Nat
deriving DecidableEq, Repr

/-- The `TriCoreISelAddressMode` default constructor:
`BaseType(RegBase), Disp(0), GV(nullptr), CP(nullptr), BlockAddr(nullptr),
ES(nullptr), JT(-1), Align(0)` with a null `Base.Reg`. -/
def initAddressMode : TriCoreISelAddressMode :=
  { BaseType := AMBaseKind.RegBase
    BaseReg := none
    BaseFrameIndex := 0
    Disp := 0
    GV := none
    CP := none
    BlockAddr := none
    ES := none
    JT := -1
    Align := 0 }

/-- `TriCoreISelAddressMode::hasSymbolicDisplacement`:
`GV != nullptr || CP != nullptr || ES != nullptr || JT != -1`
(the source does not test `BlockAddr`). -/
def TriCoreISelAddressMode.hasSymbolicDisplacement
    (am : TriCoreISelAddressMode) : Bool :=
  am.GV.isSome || am.CP.isSome || am.ES.isSome || am.JT != -1

/-! ## The address matcher -/

/-- `TriCoreDAGToDAGISel::MatchWrapper` (lines 126-151).  The C++ returns
`true` on failure; the embedding returns `(failed?, descriptor)`.  Failure
happens exactly when the descriptor already has a symbolic displacement;
otherwise, if the wrapped operand is a `GlobalAddressSDNode`, `GV` is set
and its offset accumulated into `Disp`, and in all non-failing cases the
call succeeds. -/
def matchWrapper (N : Node) (AM : TriCoreISelAddressMode) :
    Bool × TriCoreISelAddressMode :=
  if AM.hasSymbolicDisplacement then (true, AM)
  else
    match N with
    | Node.wrapper (Node.globalAddr g off) =>
        (false, { AM with GV := some g, Disp := AM.Disp + off })
    | _ => (false, AM)

/-- `TriCoreDAGToDAGISel::MatchAddressBase` (lines 155-166): assign `N` as
the register base unless the base is already occupied
(`AM.BaseType != RegBase || AM.Base.Reg.getNode()`). -/
def matchAddressBase (N : Node) (AM : TriCoreISelAddressMode) :
    Bool × TriCoreISelAddressMode :=
  if AM.BaseType ≠ AMBaseKind.RegBase ∨ AM.BaseReg ≠ none then (true, AM)
  else (false, { AM with BaseType := AMBaseKind.RegBase, BaseReg := some N })

/-- `TriCoreDAGToDAGISel::MatchAddress` (lines 169-232), parameterized by
the external DAG analysis `CurDAG->MaskedValueIsZero` (`mvz n mask` decides
whether every bit of `mask` is known zero in `n`; `mask` is the raw
`APInt` bit pattern of the constant).  The C++ returns `true` on failure
and mutates `AM` in place; the embedding threads the descriptor
explicitly.  Each `case` of the `switch` is one equation; opcodes the
`switch` does not mention fall to `MatchAddressBase`. -/
def matchAddress (mvz : Node → Nat → Bool) :
    Node → TriCoreISelAddressMode → Bool × TriCoreISelAddressMode
  | Node.const bits, AM =>
      (false, { AM with Disp := AM.Disp + sext32 bits })
  | Node.wrapper op0, AM =>
      if (matchWrapper (Node.wrapper op0) AM).1 = false then
        matchWrapper (Node.wrapper op0) AM
      else
        matchAddressBase (Node.wrapper op0) (matchWrapper (Node.wrapper op0) AM).2
  | Node.frameIndex fi, AM =>
      if AM.BaseType = AMBaseKind.RegBase ∧ AM.BaseReg = none then
        (false, { AM with BaseType := AMBaseKind.FrameIndexBase,
                          BaseFrameIndex := fi })
      else matchAddressBase (Node.frameIndex fi) AM
  | Node.add op0 op1, AM =>
      -- Backup = AM; try (op0, op1), then from Backup (op1, op0),
      -- then MatchAddressBase on Backup.  `&&` short-circuits, so the
      -- second operand is only matched when the first succeeded.
      if (if (matchAddress mvz op0 AM).1 then matchAddress mvz op0 AM
          else matchAddress mvz op1 (matchAddress mvz op0 AM).2).1 = false then
        (if (matchAddress mvz op0 AM).1 then matchAddress mvz op0 AM
         else matchAddress mvz op1 (matchAddress mvz op0 AM).2)
      else if (if (matchAddress mvz op1 AM).1 then matchAddress mvz op1 AM
               else matchAddress mvz op0 (matchAddress mvz op1 AM).2).1 = false then
        (if (matchAddress mvz op1 AM).1 then matchAddress mvz op1 AM
         else matchAddress mvz op0 (matchAddress mvz op1 AM).2)
      else matchAddressBase (Node.add op0 op1) AM
  | Node.or op0 op1, AM =>
      -- Handle "X | C" as "X + C" iff X is known to have C bits clear.
      (match op1 with
       | Node.const cbits =>
           if (matchAddress mvz op0 AM).1 = false
              ∧ (matchAddress mvz op0 AM).2.GV = none
              ∧ mvz op0 cbits = true then
             (false, { (matchAddress mvz op0 AM).2 with
                        Disp := (matchAddress mvz op0 AM).2.Disp + sext32 cbits })
           else matchAddressBase (Node.or op0 (Node.const cbits)) AM
       | _ => matchAddressBase (Node.or op0 op1) AM)
  | N, AM => matchAddressBase N AM

/-! ## `SelectAddr_new` / `SelectAddr` -/

/-- An `SDValue` produced as the `Base` output operand of `SelectAddr_new`:
either a target frame index (`CurDAG->getTargetFrameIndex`) or a plain
node value. -/
inductive SDVal where
  | targetFrameIndex (fi : Int)
  | node (n : Node)
deriving DecidableEq, Repr

/-- `TriCoreDAGToDAGISel::SelectAddr_new` (lines 237-277).  The C++ returns
`true` with the out-parameters `Base`/`Disp` on success and `false` when
`MatchAddress` failed; the embedding returns `some (Base, Disp)` or `none`.
A null register base is defaulted to `CurDAG->getRegister(0, VT)`
(modelled as `Node.register 0`); when a global symbol was matched, `Base`
is overridden to the original input node and `Disp` materializes
`AM.Disp`. -/
def SelectAddr_new (mvz : Node → Nat → Bool) (N : Node) : Option (SDVal × Int) :=
  if (matchAddress mvz N initAddressMode).1 then none
  else
    let AM0 := (matchAddress mvz N initAddressMode).2
    let AM := if AM0.BaseType = AMBaseKind.RegBase ∧ AM0.BaseReg = none
              then { AM0 with BaseReg := some (Node.register 0) } else AM0
    let Base := if AM.BaseType = AMBaseKind.FrameIndexBase
                then SDVal.targetFrameIndex AM.BaseFrameIndex
                -- `AM.Base.Reg` is non-null here because of the defaulting
                -- above whenever `BaseType = RegBase`.
                else SDVal.node (AM.BaseReg.getD (Node.register 0))
    if AM.GV.isSome then some (SDVal.node N, AM.Disp)
    else some (Base, AM.Disp)

/-- `TriCoreDAGToDAGISel::SelectAddr` (lines 280-319).  Its first statement
is `return SelectAddr_new(Addr, Base, Offset);`, so the trailing legacy
handling (the frame-index special case, the target-symbol opcode checks and
the base-plus-zero fallback, lines 285-318) is unreachable dead code and the
embedding is exactly that call. -/
def SelectAddr (mvz : Node → Nat → Bool) (Addr : Node) : Option (SDVal × Int) :=
  SelectAddr_new mvz Addr

/-! ## The node lowering dispatcher (`Select`) -/

/-- The two process-wide static flags of `TriCoreDAGToDAGISel`
(`ptyType` read by `isPointer()`, `intType` read by `isInteger()`). -/
structure ISelGlobalState where
  ptyType : Bool
  intType : Bool
deriving DecidableEq, Repr

/-- `TriCoreDAGToDAGISel::isPointer()`: returns the static `ptyType`. -/
def isPointer (st : ISelGlobalState) : Bool := st.ptyType

/-- `TriCoreDAGToDAGISel::isInteger()`: returns the static `intType`. -/
def isInteger (st : ISelGlobalState) : Bool := st.intType

/-- A machine node produced by the `Select` cases that lower in place:
`TriCore::ADDrc` over (target frame index, constant) or `TriCore::RSUBsr`
over (operand, constant). -/
inductive LoweredNode where
  | ADDrc (tfi : Int) (imm : Int)
  | RSUBsr (op : Node) (imm : Int)
deriving DecidableEq, Repr

/-- Outcome of `TriCoreDAGToDAGISel::Select` for one node: either a lowered
machine node — `replaced` for `CurDAG->SelectNodeTo` (in-place reuse when
the node has one use), `fresh` for `CurDAG->getMachineNode` — or deferral
to the generated matcher `SelectCode`. -/
inductive SelectResult where
  | replaced (l : LoweredNode)
  | fresh (l : LoweredNode)
  | deferred
deriving DecidableEq, Repr

/-- `TriCoreDAGToDAGISel::Select` (lines 321-395), restricted to its effect
on the node and on the static flags.  External inputs are modelled as
parameters: `argTy` is the `getArgType()` accessor of the modified
`SDNode`, `iPTRv` the numeric value of `MVT::iPTR`, and `oneUse` the
`N->hasOneUse()` query.  The `STORE` case executes
`ptyType = (N->getOperand(1)->getArgType() == (int64_t)MVT::iPTR)`;
the `LOAD` and `SEXTLOAD` cases only print diagnostics; nothing in the
function ever writes `intType`. -/
def Select (argTy : Node → Int) (iPTRv : Int) (oneUse : Bool)
    (N : Node) (st : ISelGlobalState) : SelectResult × ISelGlobalState :=
  match N with
  | Node.frameIndex fi =>
      if oneUse then (SelectResult.replaced (LoweredNode.ADDrc fi 0), st)
      else (SelectResult.fresh (LoweredNode.ADDrc fi 0), st)
  | Node.sub op0 =>
      if oneUse then (SelectResult.replaced (LoweredNode.RSUBsr op0 0), st)
      else (SelectResult.fresh (LoweredNode.RSUBsr op0 0), st)
  | Node.store _ op1 _ =>
      (SelectResult.deferred, { st with ptyType := decide (argTy op1 = iPTRv) })
  | Node.load _ _ => (SelectResult.deferred, st)
  | Node.sextload => (SelectResult.deferred, st)
  | _ => (SelectResult.deferred, st)

/-- The `MaskedValueIsZero` oracle that answers `false` everywhere (used by
concrete witnesses). -/
def mvzNever : Node → Nat → Bool := fun _ _ => false

/-- The `MaskedValueIsZero` oracle that answers `true` everywhere (used by
concrete witnesses). -/
def mvzAlways : Node → Nat → Bool := fun _ _ => true

/-- C4: for every value `V`, `adjustFixupValue` applied to the
high16-pc-relative kind on `V` returns the same encoded value as
`adjustFixupValue` applied to the low16-pc-relative kind on `V >> 16`:
the two kinds share the same bit-splitting logic through the intentional
fallthrough. -/
theorem adjustFixupValue_hi16_eq_lo16_shifted (V : Nat) :
    adjustFixupValue TriCoreFixupKind.fixup_leg_mov_hi16_pcrel V
      = adjustFixupValue TriCoreFixupKind.fixup_leg_mov_lo16_pcrel (V >>> 16) := rfl

/-- C6: for every input value and both recognised fixup kinds,
`adjustFixupValue` returns `(bits 15-12 of the possibly pre-shifted value
<< 16) | (bits 11-0 of that value)`; consequently every bit in positions
12 through 15 of the returned value is zero, and in particular the
low16-pc-relative adjustment of `0x12345678` is `0x50678`. -/
theorem adjustFixupValue_bit_layout (Kind : TriCoreFixupKind) (v i : Nat)
    (h1 : 12 ≤ i) (h2 : i ≤ 15) :
    adjustFixupValue Kind v
      = (((preShiftValue Kind v &&& 0xF000) >>> 12) <<< 16)
          ||| (preShiftValue Kind v &&& 0x0FFF)
    ∧ (adjustFixupValue Kind v).testBit i = false
    ∧ adjustFixupValue TriCoreFixupKind.fixup_leg_mov_lo16_pcrel 0x12345678 = 0x50678 := by
  refine ⟨rfl, ?_, by decide⟩
  have hle : preShiftValue Kind v &&& 0x0FFF ≤ 0x0FFF := Nat.and_le_right
  have hpow : (2 : Nat) ^ 12 ≤ 2 ^ i := Nat.pow_le_pow_right (by decide) h1
  have hlt : (preShiftValue Kind v &&& 0x0FFF) < 2 ^ i := by
    have h2p : (0x0FFF : Nat) < 2 ^ 12 := by decide
    omega
  have hi16 : ¬ (i ≥ 16) := by omega
  unfold adjustFixupValue
  rw [Nat.testBit_or, Nat.testBit_shiftLeft, Nat.testBit_lt_two_pow hlt]
  simp [hi16]

theorem adjustFixupValue_bit_layout_witness :
    adjustFixupValue TriCoreFixupKind.fixup_leg_mov_lo16_pcrel 0x12345678 = 0x50678
    ∧ (adjustFixupValue TriCoreFixupKind.fixup_leg_mov_lo16_pcrel 0x12345678).testBit 12 = false := by
  have h := adjustFixupValue_bit_layout TriCoreFixupKind.fixup_leg_mov_lo16_pcrel
    0x12345678 12 (by decide) (by decide)
  exact ⟨h.2.2, h.2.1⟩

/-- C7: `applyFixup` leaves every byte of the buffer unchanged when the
encoded value computed by `adjustFixupValue` is zero; otherwise it modifies
exactly the 4 bytes at `Offset .. Offset+3`, setting each to its old value
bitwise-ORed with the corresponding little-endian byte of the encoded
value, and leaves every byte outside that window unchanged. -/
theorem applyFixup_byte_effects (Fixup : MCFixup) (Data : Nat → Nat) (Value j : Nat) :
    (adjustFixupValue Fixup.Kind Value = 0 → applyFixup Fixup Data Value j = Data j)
    ∧ (adjustFixupValue Fixup.Kind Value ≠ 0 →
        ((j < Fixup.Offset ∨ Fixup.Offset + 4 ≤ j) →
            applyFixup Fixup Data Value j = Data j)
        ∧ (Fixup.Offset ≤ j → j < Fixup.Offset + 4 →
            applyFixup Fixup Data Value j
              = Data j
                  ||| ((adjustFixupValue Fixup.Kind Value >>> ((j - Fixup.Offset) * 8))
                        &&& 0xFF))) := by
  refine ⟨fun h0 => ?_, fun hne => ⟨fun hout => ?_, fun hlo hhi => ?_⟩⟩
  · simp [applyFixup, h0]
  · simp only [applyFixup, orFixupByte, if_neg hne]
    rw [if_neg (by omega), if_neg (by omega), if_neg (by omega), if_neg (by omega)]
  · simp only [applyFixup, orFixupByte, if_neg hne]
    have hk : j = Fixup.Offset + 0 ∨ j = Fixup.Offset + 1 ∨ j = Fixup.Offset + 2
        ∨ j = Fixup.Offset + 3 := by omega
    rcases hk with hk | hk | hk | hk <;> subst hk <;>
      simp [Nat.add_sub_cancel_left]

theorem applyFixup_byte_effects_witness :
    applyFixup (MCFixup.mk TriCoreFixupKind.fixup_leg_mov_lo16_pcrel 0)
        (fun _ => 0) 0x12345678 0 = 0x78
    ∧ applyFixup (MCFixup.mk TriCoreFixupKind.fixup_leg_mov_lo16_pcrel 0)
        (fun _ => 0) 0x12345678 7 = 0 := by
  have h := applyFixup_byte_effects
    (MCFixup.mk TriCoreFixupKind.fixup_leg_mov_lo16_pcrel 0) (fun _ => 0) 0x12345678
  constructor
  · have h0 := ((h 0).2 (by decide)).2 (by decide) (by decide)
    rw [h0]; decide
  · have h7 := ((h 7).2 (by decide)).1 (by decide)
    rw [h7]

/-- C10: the public entry point `SelectAddr` returns exactly the result of
`SelectAddr_new` for every input: its C++ body returns unconditionally on
its first statement, so the trailing legacy handling is unreachable and the
two functions are extensionally equal. -/
theorem SelectAddr_eq_SelectAddr_new (mvz : Node → Nat → Bool) (Addr : Node) :
    SelectAddr mvz Addr = SelectAddr_new mvz Addr := rfl

/-- `MatchAddressBase` fails only on its first branch, which does not touch
the descriptor. -/
theorem matchAddressBase_fail (N : Node) (AM : TriCoreISelAddressMode)
    (h : (matchAddressBase N AM).1 = true) : (matchAddressBase N AM).2 = AM := by
  by_cases hc : AM.BaseType ≠ AMBaseKind.RegBase ∨ AM.BaseReg ≠ none
  · simp [matchAddressBase, hc]
  · simp [matchAddressBase, hc] at h

/-- `MatchWrapper` fails only on its `hasSymbolicDisplacement` branch, which
does not touch the descriptor. -/
theorem matchWrapper_fail (N : Node) (AM : TriCoreISelAddressMode)
    (h : (matchWrapper N AM).1 = true) : (matchWrapper N AM).2 = AM := by
  by_cases hc : AM.hasSymbolicDisplacement = true
  · simp [matchWrapper, hc]
  · unfold matchWrapper at h
    rw [if_neg hc] at h
    split at h <;> simp_all

/-- C1: for every node `n` and descriptor `am`, if `matchAddress n am`
returns failure then the resulting descriptor is value-equal to the
descriptor at entry: no field differs, even when speculative sub-matches
inside an `add` or `or` node mutated the state before rolling back. -/
theorem matchAddress_failure_restores_descriptor (mvz : Node → Nat → Bool)
    (n : Node) (am : TriCoreISelAddressMode)
    (h : (matchAddress mvz n am).1 = true) :
    (matchAddress mvz n am).2 = am := by
  cases n with
  | const bits => simp [matchAddress] at h
  | wrapper op0 =>
      by_cases hw : (matchWrapper (Node.wrapper op0) am).1 = false
      · rw [matchAddress, if_pos hw] at h
        simp [h] at hw
      · have hw' : (matchWrapper (Node.wrapper op0) am).1 = true := by
          revert hw; cases (matchWrapper (Node.wrapper op0) am).1 <;> simp
        rw [matchAddress, if_neg hw, matchWrapper_fail _ _ hw'] at h ⊢
        exact matchAddressBase_fail _ _ h
  | frameIndex fi =>
      by_cases hc : am.BaseType = AMBaseKind.RegBase ∧ am.BaseReg = none
      · rw [matchAddress, if_pos hc] at h
        simp at h
      · rw [matchAddress, if_neg hc] at h ⊢
        exact matchAddressBase_fail _ _ h
  | add op0 op1 =>
      by_cases h1 : (if (matchAddress mvz op0 am).1 then matchAddress mvz op0 am
          else matchAddress mvz op1 (matchAddress mvz op0 am).2).1 = false
      · rw [matchAddress, if_pos h1] at h
        simp [h] at h1
      · by_cases h2 : (if (matchAddress mvz op1 am).1 then matchAddress mvz op1 am
            else matchAddress mvz op0 (matchAddress mvz op1 am).2).1 = false
        · rw [matchAddress, if_neg h1, if_pos h2] at h
          simp [h] at h2
        · rw [matchAddress, if_neg h1, if_neg h2] at h ⊢
          exact matchAddressBase_fail _ _ h
  | or op0 op1 =>
      cases op1 with
      | const cbits =>
          by_cases hc : (matchAddress mvz op0 am).1 = false
              ∧ (matchAddress mvz op0 am).2.GV = none ∧ mvz op0 cbits = true
          · rw [matchAddress] at h
            rw [if_pos hc] at h
            simp at h
          · rw [matchAddress] at h ⊢
            rw [if_neg hc] at h ⊢
            exact matchAddressBase_fail _ _ h
      | wrapper o => exact matchAddressBase_fail _ _ h
      | globalAddr g o => exact matchAddressBase_fail _ _ h
      | frameIndex fi => exact matchAddressBase_fail _ _ h
      | add a b => exact matchAddressBase_fail _ _ h
      | or a b => exact matchAddressBase_fail _ _ h
      | sub a => exact matchAddressBase_fail _ _ h
      | store a b c => exact matchAddressBase_fail _ _ h
      | load a b => exact matchAddressBase_fail _ _ h
      | sextload => exact matchAddressBase_fail _ _ h
      | register r => exact matchAddressBase_fail _ _ h
      | other i => exact matchAddressBase_fail _ _ h
  | globalAddr g o => exact matchAddressBase_fail _ _ h
  | sub a => exact matchAddressBase_fail _ _ h
  | store a b c => exact matchAddressBase_fail _ _ h
  | load a b => exact matchAddressBase_fail _ _ h
  | sextload => exact matchAddressBase_fail _ _ h
  | register r => exact matchAddressBase_fail _ _ h
  | other i => exact matchAddressBase_fail _ _ h

theorem matchAddress_failure_restores_descriptor_witness :
    (matchAddress mvzNever (Node.other 0)
        { initAddressMode with BaseReg := some (Node.register 5) }).1 = true
    ∧ (matchAddress mvzNever (Node.other 0)
        { initAddressMode with BaseReg := some (Node.register 5) }).2
      = { initAddressMode with BaseReg := some (Node.register 5) } :=
  ⟨by decide, matchAddress_failure_restores_descriptor _ _ _ (by decide)⟩

/-- C5: for every `add` node with operands `a` and `b`, `matchAddress`
tries matching `a` then `b` starting from the descriptor at entry and keeps
the mutations only when both operand matches succeed; otherwise it restores
the entry snapshot and tries `b` then `a`; if neither order fully succeeds,
it restores the snapshot and hands the `add` node to `MatchAddressBase`,
which assigns it as the register base exactly when the base is
unoccupied. -/
theorem matchAddress_add_transactional (mvz : Node → Nat → Bool)
    (a b : Node) (am : TriCoreISelAddressMode) :
    ((matchAddress mvz a am).1 = false →
     (matchAddress mvz b (matchAddress mvz a am).2).1 = false →
       matchAddress mvz (Node.add a b) am
         = matchAddress mvz b (matchAddress mvz a am).2)
    ∧ (¬((matchAddress mvz a am).1 = false
          ∧ (matchAddress mvz b (matchAddress mvz a am).2).1 = false) →
       (matchAddress mvz b am).1 = false →
       (matchAddress mvz a (matchAddress mvz b am).2).1 = false →
       matchAddress mvz (Node.add a b) am
         = matchAddress mvz a (matchAddress mvz b am).2)
    ∧ (¬((matchAddress mvz a am).1 = false
          ∧ (matchAddress mvz b (matchAddress mvz a am).2).1 = false) →
       ¬((matchAddress mvz b am).1 = false
          ∧ (matchAddress mvz a (matchAddress mvz b am).2).1 = false) →
       matchAddress mvz (Node.add a b) am = matchAddressBase (Node.add a b) am) := by
  refine ⟨fun h1 h2 => ?_, fun hno h1 h2 => ?_, fun hno1 hno2 => ?_⟩
  · rw [matchAddress]
    rw [if_pos (by simp [h1, h2])]
    simp [h1]
  · have hfail1 : ¬ ((if (matchAddress mvz a am).1 then matchAddress mvz a am
        else matchAddress mvz b (matchAddress mvz a am).2).1 = false) := by
      cases hra : (matchAddress mvz a am).1 with
      | true => simp [hra]
      | false =>
          have hrab : (matchAddress mvz b (matchAddress mvz a am).2).1 = true := by
            rcases Bool.eq_false_or_eq_true
                (matchAddress mvz b (matchAddress mvz a am).2).1 with ht | hf
            · exact ht
            · exact absurd ⟨hra, hf⟩ hno
          simp [hra, hrab]
    rw [matchAddress, if_neg hfail1]
    rw [if_pos (by simp [h1, h2])]
    simp [h1]
  · have hfail1 : ¬ ((if (matchAddress mvz a am).1 then matchAddress mvz a am
        else matchAddress mvz b (matchAddress mvz a am).2).1 = false) := by
      cases hra : (matchAddress mvz a am).1 with
      | true => simp [hra]
      | false =>
          have hrab : (matchAddress mvz b (matchAddress mvz a am).2).1 = true := by
            rcases Bool.eq_false_or_eq_true
                (matchAddress mvz b (matchAddress mvz a am).2).1 with ht | hf
            · exact ht
            · exact absurd ⟨hra, hf⟩ hno1
          simp [hra, hrab]
    have hfail2 : ¬ ((if (matchAddress mvz b am).1 then matchAddress mvz b am
        else matchAddress mvz a (matchAddress mvz b am).2).1 = false) := by
      cases hrb : (matchAddress mvz b am).1 with
      | true => simp [hrb]
      | false =>
          have hrba : (matchAddress mvz a (matchAddress mvz b am).2).1 = true := by
            rcases Bool.eq_false_or_eq_true
                (matchAddress mvz a (matchAddress mvz b am).2).1 with ht | hf
            · exact ht
            · exact absurd ⟨hrb, hf⟩ hno2
          simp [hrb, hrba]
    rw [matchAddress, if_neg hfail1, if_neg hfail2]

theorem matchAddress_add_transactional_witness :
    matchAddress mvzNever (Node.add (Node.const 1) (Node.const 2)) initAddressMode
      = (false, { initAddressMode with Disp := 3 }) := by
  have h := (matchAddress_add_transactional mvzNever (Node.const 1) (Node.const 2)
      initAddressMode).1 (by decide) (by decide)
  rw [h]; decide

/-- C2: for every node `or x (const c)` with a constant right operand,
`matchAddress` folds `c` into the displacement (and succeeds with the
descriptor otherwise as left-matching left it) if and only if matching `x`
succeeded with no global symbol set in the resulting descriptor and every
bit set in `c` is known zero in `x` (`MaskedValueIsZero`); when the folding
is rejected, the descriptor is left as at entry and the `or` node itself is
assigned as the register base, failing only when a base was already
occupied. -/
theorem matchAddress_or_constant_folding (mvz : Node → Nat → Bool)
    (x : Node) (c : Nat) (am : TriCoreISelAddressMode) :
    (((matchAddress mvz x am).1 = false
        ∧ (matchAddress mvz x am).2.GV = none
        ∧ mvz x c = true) →
      matchAddress mvz (Node.or x (Node.const c)) am
        = (false, { (matchAddress mvz x am).2 with
                    Disp := (matchAddress mvz x am).2.Disp + sext32 c }))
    ∧ (¬((matchAddress mvz x am).1 = false
        ∧ (matchAddress mvz x am).2.GV = none
        ∧ mvz x c = true) →
      (am.BaseType = AMBaseKind.RegBase ∧ am.BaseReg = none →
        matchAddress mvz (Node.or x (Node.const c)) am
          = (false, { am with BaseType := AMBaseKind.RegBase,
                              BaseReg := some (Node.or x (Node.const c)) }))
      ∧ (¬(am.BaseType = AMBaseKind.RegBase ∧ am.BaseReg = none) →
        matchAddress mvz (Node.or x (Node.const c)) am = (true, am))) := by
  refine ⟨fun hc => ?_, fun hc => ⟨fun hb => ?_, fun hb => ?_⟩⟩
  · rw [matchAddress, if_pos hc]
  · rw [matchAddress, if_neg hc, matchAddressBase,
      if_neg (by push_neg; exact ⟨hb.1, hb.2⟩)]
  · rw [matchAddress, if_neg hc, matchAddressBase,
      if_pos (by rcases not_and_or.mp hb with h | h
                 · exact Or.inl h
                 · exact Or.inr h)]

theorem matchAddress_or_constant_folding_witness :
    matchAddress mvzAlways (Node.or (Node.register 1) (Node.const 4)) initAddressMode
      = (false, { initAddressMode with
                  BaseReg := some (Node.register 1)
                  Disp := 4 }) := by
  have h := (matchAddress_or_constant_folding mvzAlways (Node.register 1) 4
      initAddressMode).1 (by decide)
  rw [h]; decide

/-- C3 counterexample: with a symbol already set in the descriptor,
`matchAddress` on a symbol-wrapper node does NOT return failure
immediately — the failed `MatchWrapper` call falls through to
`MatchAddressBase`, which assigns the wrapper node itself as the register
base and succeeds. -/
theorem matchAddress_wrapper_symbol_set_cex :
    (matchAddress mvzNever (Node.wrapper (Node.other 1))
        { initAddressMode with GV := some 0 }).1 = false
    ∧ (matchAddress mvzNever (Node.wrapper (Node.other 1))
        { initAddressMode with GV := some 0 }).2.BaseReg
      = some (Node.wrapper (Node.other 1)) := by decide

/-- C3 amended: for every symbol-wrapper node and every descriptor in
which a symbol is already set, the `MatchWrapper` step fails without
mutating the descriptor and `matchAddress` falls back to
`MatchAddressBase`, which assigns the wrapper node itself as the register
base when the base is unoccupied and fails (without mutation) only when
the base is occupied; no symbol field is ever mutated on this path. -/
theorem matchAddress_wrapper_symbol_set_base_fallback (mvz : Node → Nat → Bool)
    (op0 : Node) (am : TriCoreISelAddressMode)
    (h : am.hasSymbolicDisplacement = true) :
    matchAddress mvz (Node.wrapper op0) am
      = matchAddressBase (Node.wrapper op0) am := by
  have hw : matchWrapper (Node.wrapper op0) am = (true, am) := by
    unfold matchWrapper
    rw [if_pos h]
  rw [matchAddress, hw]
  simp

theorem matchAddress_wrapper_symbol_set_base_fallback_witness :
    matchAddress mvzNever (Node.wrapper (Node.other 1))
        { initAddressMode with GV := some 0 }
      = (false, { initAddressMode with
                  GV := some 0
                  BaseReg := some (Node.wrapper (Node.other 1)) }) := by
  rw [matchAddress_wrapper_symbol_set_base_fallback mvzNever (Node.other 1)
      { initAddressMode with GV := some 0 } (by decide)]
  decide

/-- C8: for every address expression on which `SelectAddr_new` succeeds:
if a global symbol was resolved during matching, the returned base is the
original unmodified input node and the returned displacement is a constant
equal to the accumulated offset; if no symbol was resolved and the
descriptor still has its initial register-base state with no register
assigned, the returned base is the reserved register-0 placeholder and the
displacement is a constant equal to the accumulated offset. -/
theorem SelectAddr_new_symbol_and_default_base (mvz : Node → Nat → Bool)
    (n : Node) (am : TriCoreISelAddressMode)
    (h : matchAddress mvz n initAddressMode = (false, am)) :
    (am.GV.isSome = true → SelectAddr_new mvz n = some (SDVal.node n, am.Disp))
    ∧ (am.GV = none → am.BaseType = AMBaseKind.RegBase → am.BaseReg = none →
        SelectAddr_new mvz n = some (SDVal.node (Node.register 0), am.Disp)) := by
  unfold SelectAddr_new
  rw [h]
  refine ⟨fun hg => ?_, fun hg hbt hbr => ?_⟩
  · by_cases hd : am.BaseType = AMBaseKind.RegBase ∧ am.BaseReg = none
    · simp [hd, hg]
    · simp [hd, hg]
  · simp [hbt, hbr, hg]

theorem SelectAddr_new_symbol_and_default_base_witness :
    SelectAddr_new mvzNever (Node.const 5) = some (SDVal.node (Node.register 0), 5)
    ∧ SelectAddr_new mvzNever (Node.wrapper (Node.globalAddr 7 12))
      = some (SDVal.node (Node.wrapper (Node.globalAddr 7 12)), 12) := by
  constructor
  · exact (SelectAddr_new_symbol_and_default_base mvzNever (Node.const 5)
      { initAddressMode with Disp := 5 } (by decide)).2 (by decide) (by decide) (by decide)
  · exact (SelectAddr_new_symbol_and_default_base mvzNever
      (Node.wrapper (Node.globalAddr 7 12))
      { initAddressMode with
        GV := some 7
        Disp := 12 } (by decide)).1 (by decide)

/-- C9 counterexample: `Select` never writes the process-wide `intType`
(`isIntegerHint`) flag — visiting a store or a load of an integer-shaped
value (`argTy` yields 7, `MVT::iPTR` is 99) leaves `intType` exactly as it
was before the visit instead of updating it for the generic matcher's
predicate callbacks. -/
theorem Select_intType_not_updated_cex :
    ((Select (fun _ => 7) 99 true
        (Node.store (Node.other 0) (Node.other 1) (Node.other 2))
        (ISelGlobalState.mk false false)).2.intType = false)
    ∧ ((Select (fun _ => 7) 99 true (Node.load (Node.other 0) (Node.other 1))
        (ISelGlobalState.mk false false)).2.intType = false)
    ∧ ((Select (fun _ => 7) 99 true
        (Node.store (Node.other 0) (Node.other 1) (Node.other 2))
        (ISelGlobalState.mk false true)).2.intType = true) := by decide

/-- C9 amended: visiting a store node during node lowering writes the
process-wide `ptyType` (`isPointerHint`) flag, true exactly when the stored
value is pointer-shaped, and defers the node to the generic matcher;
visiting a load node defers to the generic matcher with both flags
unchanged; the `intType` (`isIntegerHint`) flag is never written by node
lowering. -/
theorem Select_store_load_flag_effects (argTy : Node → Int) (iPTRv : Int)
    (oneUse : Bool) (c v p ch pt : Node) (st : ISelGlobalState) :
    Select argTy iPTRv oneUse (Node.store c v p) st
      = (SelectResult.deferred, { st with ptyType := decide (argTy v = iPTRv) })
    ∧ Select argTy iPTRv oneUse (Node.load ch pt) st
      = (SelectResult.deferred, st) := ⟨rfl, rfl⟩
